import Mathlib

/-!
Verification development for the faf (fire-and-forget) request router.

The definitions below are a shallow embedding of the core of the
repository: the date normalizer and record builders of `src/faf/tools.py`,
the field validators of `src/faf/validation.py` (duplicated verbatim in
`src/faf/mcp_tools.py`), the MCP tool wrappers of `src/faf/mcp_tools.py`,
and the dispatch / persistence slice of `src/faf/main.py`
(`call_tool_function`, the tool-call processing tail of `convert_to_json`,
and `write_to_file`).

Python strings are modelled as Lean `String` / `List Char`; the helpers
`pyStripL`, `pyLowerL`, `hasChar`, `containsList` and `startsWithList`
mirror `str.strip`, `str.lower` (ASCII range), the `in` operator on
characters and substrings, and `str.startswith`.  Raised `ValueError`s are
modelled as `Except.error` carrying the message text; returned values as
`Except.ok`.
-/

/-- Single quote character, built numerically so messages can embed it. -/
def quoteCh : String := String.mk [Char.ofNat 39]

/-- Boolean test that `p` is a prefix of `l` (Python `str.startswith`). -/
def startsWithList : List Char → List Char → Bool
  | [], _ => true
  | _ :: _, [] => false
  | a :: as, b :: bs => a == b && startsWithList as bs

/-- Boolean test that character `c` occurs in `l` (Python `c in s`). -/
def hasChar (l : List Char) (c : Char) : Bool :=
  match l with
  | [] => false
  | a :: t => a == c || hasChar t c

/-- Boolean test that `needle` occurs as a contiguous substring of `hay`
(Python `needle in hay`). -/
def containsList (needle : List Char) : List Char → Bool
  | [] => startsWithList needle []
  | c :: t => startsWithList needle (c :: t) || containsList needle t

/-- Characters stripped by Python `str.strip` (ASCII whitespace). -/
def isPySpace (c : Char) : Bool :=
  c == ' ' || c == '\t' || c == '\n' || c == '\r' ||
    c == Char.ofNat 11 || c == Char.ofNat 12

/-- Python `str.strip` on character lists. -/
def pyStripL (l : List Char) : List Char :=
  ((l.dropWhile isPySpace).reverse.dropWhile isPySpace).reverse

/-- ASCII lowercasing of one character (Python `str.lower` restricted to
the ASCII range, which covers every string these claims mention). -/
def asciiLower (c : Char) : Char :=
  if 'A' ≤ c && c ≤ 'Z' then Char.ofNat (c.toNat + 32) else c

/-- Python `str.lower` on character lists (ASCII range). -/
def pyLowerL (l : List Char) : List Char := l.map asciiLower

/-- Python `s.replace(c, "")` for a one-character pattern: every
occurrence of `c` is deleted. -/
def remCharL (c : Char) : List Char → List Char
  | [] => []
  | a :: t => if a == c then remCharL c t else a :: remCharL c t

/-- Python `date.replace("this", "")` from `tools.py`: delete every
non-overlapping occurrence of the substring "this", scanning left to
right. -/
def removeThisList : List Char → List Char
  | [] => []
  | 't' :: 'h' :: 'i' :: 's' :: rest => removeThisList rest
  | c :: t => c :: removeThisList t

/-- Letters that the regex replacement of `tools.py` can write into the
output: the unit words day, week and month. -/
def unitChars : List Char := ['d', 'a', 'y', 'w', 'e', 'k', 'm', 'o', 'n', 't', 'h']

/-- Attempt to match the regex `in(\d+)(day|week|month)` of `tools.py` at
the head of `l`.  On success, returns the replacement text `\1\2`
(digits then unit) and the remainder of the input after the match.  The
greedy `\d+` needs no backtracking: a shorter digit run would leave a
digit where a unit letter is required. -/
def tryInMatch (l : List Char) : Option (List Char × List Char) :=
  if startsWithList ['i', 'n'] l then
    let rest := l.drop 2
    let ds := rest.takeWhile Char.isDigit
    let r2 := rest.dropWhile Char.isDigit
    if ds.isEmpty then none
    else if startsWithList ['d', 'a', 'y'] r2 then some (ds ++ ['d', 'a', 'y'], r2.drop 3)
    else if startsWithList ['w', 'e', 'e', 'k'] r2 then some (ds ++ ['w', 'e', 'e', 'k'], r2.drop 4)
    else if startsWithList ['m', 'o', 'n', 't', 'h'] r2 then some (ds ++ ['m', 'o', 'n', 't', 'h'], r2.drop 5)
    else none
  else none

theorem startsWithList_iff (n : List Char) :
    ∀ l, startsWithList n l = true ↔ ∃ r, l = n ++ r := by
  induction n with
  | nil =>
    intro l
    simp [startsWithList]
  | cons a as ih =>
    intro l
    cases l with
    | nil =>
      constructor
      · intro h
        exact absurd h (by simp [startsWithList])
      · rintro ⟨r, hr⟩
        cases hr
    | cons b bs =>
      constructor
      · intro h
        simp only [startsWithList, Bool.and_eq_true, beq_iff_eq] at h
        obtain ⟨hab, hs⟩ := h
        obtain ⟨r, hr⟩ := (ih bs).mp hs
        exact ⟨r, by simp [hab, hr]⟩
      · rintro ⟨r, hr⟩
        rw [List.cons_append] at hr
        injection hr with h1 h2
        subst h1
        subst h2
        simp only [startsWithList, beq_self_eq_true, Bool.true_and]
        exact (ih _).mpr ⟨r, rfl⟩

theorem tryInMatch_spec (l : List Char) (p : List Char × List Char)
    (h : tryInMatch l = some p) :
    (∀ a ∈ p.1, a ∈ l ∨ a ∈ unitChars) ∧ (∀ a ∈ p.2, a ∈ l) ∧
      p.2.length < l.length := by
  simp only [tryInMatch] at h
  split at h
  case isTrue hpre =>
    obtain ⟨r, hr⟩ := (startsWithList_iff _ _).mp hpre
    have hdropmem : ∀ a ∈ l.drop 2, a ∈ l := fun a ha => List.drop_subset 2 l ha
    have htake : ∀ a ∈ (l.drop 2).takeWhile Char.isDigit, a ∈ l := by
      intro a ha
      exact hdropmem a ((List.takeWhile_prefix Char.isDigit).subset ha)
    have hdropw : ∀ a ∈ (l.drop 2).dropWhile Char.isDigit, a ∈ l := by
      intro a ha
      exact hdropmem a ((List.dropWhile_suffix Char.isDigit).subset ha)
    have hlen2 : 2 ≤ l.length := by
      subst hr
      simp
    have hlenw : ((l.drop 2).dropWhile Char.isDigit).length ≤ l.length - 2 := by
      have := (List.dropWhile_sublist (l := l.drop 2) (p := Char.isDigit)).length_le
      simpa [List.length_drop] using this
    split at h
    · exact absurd h (by simp)
    · split at h
      · cases h
        refine ⟨?_, ?_, ?_⟩
        · intro a ha
          rcases List.mem_append.mp ha with h1 | h1
          · exact Or.inl (htake a h1)
          · right
            simp only [List.mem_cons, List.not_mem_nil, or_false] at h1
            rcases h1 with h1 | h1 | h1 <;> simp [unitChars, h1]
        · intro a ha
          exact hdropw a (List.drop_subset 3 _ ha)
        · simp only [List.length_drop]
          omega
      · split at h
        · cases h
          refine ⟨?_, ?_, ?_⟩
          · intro a ha
            rcases List.mem_append.mp ha with h1 | h1
            · exact Or.inl (htake a h1)
            · right
              simp only [List.mem_cons, List.not_mem_nil, or_false] at h1
              rcases h1 with h1 | h1 | h1 | h1 <;> simp [unitChars, h1]
          · intro a ha
            exact hdropw a (List.drop_subset 4 _ ha)
          · simp only [List.length_drop]
            omega
        · split at h
          · cases h
            refine ⟨?_, ?_, ?_⟩
            · intro a ha
              rcases List.mem_append.mp ha with h1 | h1
              · exact Or.inl (htake a h1)
              · right
                simp only [List.mem_cons, List.not_mem_nil, or_false] at h1
                rcases h1 with h1 | h1 | h1 | h1 | h1 <;> simp [unitChars, h1]
            · intro a ha
              exact hdropw a (List.drop_subset 5 _ ha)
            · simp only [List.length_drop]
              omega
          · exact absurd h (by simp)
  case isFalse =>
    exact absurd h (by simp)

/-- Fuel-driven worker for the regex substitution, structural in the fuel
so that concrete inputs evaluate inside the kernel.  With fuel at least
the length of the input (every step consumes at least one character) the
fuel-exhaustion branch is unreachable. -/
def inSubAux : Nat → List Char → List Char
  | _, [] => []
  | 0, c :: t => c :: t
  | fuel + 1, c :: t =>
    match tryInMatch (c :: t) with
    | some p => p.1 ++ inSubAux fuel p.2
    | none => c :: inSubAux fuel t

/-- Python `re.sub` of the pattern `in(\d+)(day|week|month)` with
replacement `\1\2`, scanning left to right and advancing one character
when no match starts at the current position. -/
def inSub (l : List Char) : List Char := inSubAux l.length l

/-- Date Normalizer: the inline rewrite applied to the date argument by
`follow_up_then` in `tools.py` (lines 32 to 39): delete "this", spaces,
dots, commas and colons, in that order, then collapse the pattern
in-digits-unit via the regex substitution. -/
def normalize_date (date : String) : String :=
  String.mk (inSub (remCharL ':' (remCharL ',' (remCharL '.'
    (remCharL ' ' (removeThisList date.data))))))

example : normalize_date "thisMonday" = "Monday" := by decide
example : normalize_date "1 August" = "1August" := by decide
example : normalize_date "in2weeks" = "2weeks" := by decide
example : normalize_date "tomorrow3:00pm" = "tomorrow300pm" := by decide
example : normalize_date "th is" = "this" := by decide
example : normalize_date "this" = "" := by decide
example : normalize_date "in 2 weeks" = "2weeks" := by decide

theorem hasChar_eq_false_iff (l : List Char) (c : Char) :
    hasChar l c = false ↔ c ∉ l := by
  induction l with
  | nil => simp [hasChar]
  | cons a t ih =>
    simp only [hasChar, Bool.or_eq_false_iff, beq_eq_false_iff_ne, ih,
      List.mem_cons, not_or]
    constructor
    · rintro ⟨h1, h2⟩
      exact ⟨fun hc => h1 hc.symm, h2⟩
    · rintro ⟨h1, h2⟩
      exact ⟨fun hc => h1 hc.symm, h2⟩

theorem mem_remChar_sub (c : Char) (l : List Char) (a : Char)
    (h : a ∈ remCharL c l) : a ∈ l := by
  induction l with
  | nil => simp [remCharL] at h
  | cons b t ih =>
    simp only [remCharL] at h
    split at h
    · exact List.mem_cons_of_mem _ (ih h)
    · rcases List.mem_cons.mp h with h1 | h1
      · simp [h1]
      · exact List.mem_cons_of_mem _ (ih h1)

theorem not_mem_remChar_self (c : Char) (l : List Char) :
    c ∉ remCharL c l := by
  induction l with
  | nil => simp [remCharL]
  | cons b t ih =>
    simp only [remCharL]
    split
    · exact ih
    · intro hmem
      rcases List.mem_cons.mp hmem with h1 | h1
      · simp_all
      · exact ih h1

theorem remChar_eq_self (c : Char) (l : List Char) (h : c ∉ l) :
    remCharL c l = l := by
  induction l with
  | nil => rfl
  | cons b t ih =>
    simp only [List.mem_cons, not_or] at h
    simp only [remCharL]
    rw [if_neg (by simp [Ne.symm h.1]), ih h.2]

theorem mem_inSubAux_sub (a : Char) :
    ∀ (n : Nat) (l : List Char), a ∈ inSubAux n l → a ∈ l ∨ a ∈ unitChars := by
  intro n
  induction n with
  | zero =>
    intro l h
    cases l with
    | nil => simp [inSubAux] at h
    | cons c t => exact Or.inl (by simpa [inSubAux] using h)
  | succ m ih =>
    intro l h
    cases l with
    | nil => simp [inSubAux] at h
    | cons c t =>
      simp only [inSubAux] at h
      cases htm : tryInMatch (c :: t) with
      | some p =>
        rw [htm] at h
        rcases List.mem_append.mp h with h1 | h1
        · exact (tryInMatch_spec _ _ htm).1 a h1
        · rcases ih p.2 h1 with h2 | h2
          · exact Or.inl ((tryInMatch_spec _ _ htm).2.1 a h2)
          · exact Or.inr h2
      | none =>
        rw [htm] at h
        rcases List.mem_cons.mp h with h1 | h1
        · exact Or.inl (by simp [h1])
        · rcases ih t h1 with h2 | h2
          · exact Or.inl (List.mem_cons_of_mem _ h2)
          · exact Or.inr h2

theorem mem_inSub_sub (a : Char) (l : List Char) (h : a ∈ inSub l) :
    a ∈ l ∨ a ∈ unitChars :=
  mem_inSubAux_sub a l.length l h

/-- Boolean check that the in-digits-unit regex matches at no position of
`l` (so the substitution pass leaves `l` unchanged). -/
def noInMatch : List Char → Bool
  | [] => true
  | c :: t => (tryInMatch (c :: t)).isNone && noInMatch t

theorem inSubAux_eq_self :
    ∀ (n : Nat) (l : List Char), noInMatch l = true → inSubAux n l = l := by
  intro n
  induction n with
  | zero =>
    intro l _
    cases l <;> rfl
  | succ m ih =>
    intro l h
    cases l with
    | nil => rfl
    | cons c t =>
      simp only [noInMatch, Bool.and_eq_true, Option.isNone_iff_eq_none] at h
      simp only [inSubAux, h.1]
      rw [ih t h.2]

theorem inSub_eq_self (l : List Char) (h : noInMatch l = true) : inSub l = l :=
  inSubAux_eq_self l.length l h

theorem removeThis_cons_ne (c : Char) (t : List Char)
    (h : startsWithList ['t', 'h', 'i', 's'] (c :: t) = false) :
    removeThisList (c :: t) = c :: removeThisList t := by
  rw [removeThisList.eq_def]
  split
  · rename_i heq
    exact absurd heq (by simp)
  · rename_i rest heq
    rw [heq] at h
    simp [startsWithList] at h
  · rename_i hno heq
    injection heq with h1 h2
    subst h1
    subst h2
    rfl

theorem removeThis_eq_self (l : List Char)
    (h : containsList ['t', 'h', 'i', 's'] l = false) :
    removeThisList l = l := by
  induction l with
  | nil => rfl
  | cons c t ih =>
    simp only [containsList, Bool.or_eq_false_iff] at h
    rw [removeThis_cons_ne c t h.1, ih h.2]

theorem normalize_no_forbidden (x : String) :
    ' ' ∉ (normalize_date x).data ∧ '.' ∉ (normalize_date x).data ∧
      ',' ∉ (normalize_date x).data ∧ ':' ∉ (normalize_date x).data := by
  have hspace : ' ' ∉ remCharL ':' (remCharL ',' (remCharL '.'
      (remCharL ' ' (removeThisList x.data)))) := by
    intro hmem
    exact not_mem_remChar_self ' ' _
      (mem_remChar_sub '.' _ _ (mem_remChar_sub ',' _ _ (mem_remChar_sub ':' _ _ hmem)))
  have hdot : '.' ∉ remCharL ':' (remCharL ',' (remCharL '.'
      (remCharL ' ' (removeThisList x.data)))) := by
    intro hmem
    exact not_mem_remChar_self '.' _
      (mem_remChar_sub ',' _ _ (mem_remChar_sub ':' _ _ hmem))
  have hcomma : ',' ∉ remCharL ':' (remCharL ',' (remCharL '.'
      (remCharL ' ' (removeThisList x.data)))) := by
    intro hmem
    exact not_mem_remChar_self ',' _ (mem_remChar_sub ':' _ _ hmem)
  have hcolon : ':' ∉ remCharL ':' (remCharL ',' (remCharL '.'
      (remCharL ' ' (removeThisList x.data)))) :=
    not_mem_remChar_self ':' _
  refine ⟨?_, ?_, ?_, ?_⟩ <;>
    · intro hmem
      rcases mem_inSub_sub _ _ hmem with h1 | h1
      · first
          | exact hspace h1
          | exact hdot h1
          | exact hcomma h1
          | exact hcolon h1
      · simp [unitChars] at h1

theorem string_mk_data (s : String) : String.mk s.data = s := by
  cases s
  rfl

/-- JSON values, as produced by the tool functions and consumed by
`json.loads` / `json.dumps` round trips (which preserve these values and
the insertion order of object keys). -/
inductive Json where
  | null
  | bool (b : Bool)
  | num (n : Int)
  | str (s : String)
  | arr (xs : List Json)
  | obj (kvs : List (String × Json))

/-- Result of one synchronous tool function from `tools.py`: either a
JSON-serialized object (every tool except the save-url failure branch) or
a plain non-JSON string (the save-url sentinel, which starts with
"Error:" and is not valid JSON text). -/
inductive SyncResult where
  | js (j : Json)
  | raw (s : String)

/-- Tool `follow_up_then` from `tools.py`: normalizes the date and builds
the record object. -/
def follow_up_then (prompt date message : String) : Json :=
  Json.obj [("prompt", Json.str prompt), ("command", Json.str "follow_up_then"),
    ("payload", Json.obj [("date", Json.str (normalize_date date)),
      ("message", Json.str message)])]

/-- Tool `note_to_self` from `tools.py`. -/
def note_to_self (prompt message : String) : Json :=
  Json.obj [("prompt", Json.str prompt), ("command", Json.str "note_to_self"),
    ("payload", Json.obj [("message", Json.str message)])]

/-- Tool `journaling_topic` from `tools.py`. -/
def journaling_topic (prompt topic : String) : Json :=
  Json.obj [("prompt", Json.str prompt), ("command", Json.str "journaling_topic"),
    ("payload", Json.obj [("topic", Json.str topic)])]

/-- Tool `va_request` from `tools.py`. -/
def va_request (prompt title request : String) : Json :=
  Json.obj [("prompt", Json.str prompt), ("command", Json.str "va_request"),
    ("payload", Json.obj [("title", Json.str title), ("request", Json.str request)])]

/-- Tool `save_url` from `tools.py`: returns the sentinel error string
(not raising) when the url does not start with "http", lacks a dot, or
contains a space; otherwise returns the record object. -/
def save_url (prompt url : String) : SyncResult :=
  if !startsWithList "http".data url.data || !hasChar url.data '.' ||
      hasChar url.data ' ' then
    SyncResult.raw "Error: The input is not a valid URL."
  else
    SyncResult.js (Json.obj [("prompt", Json.str prompt),
      ("command", Json.str "save_url"),
      ("payload", Json.obj [("url", Json.str url)])])

/-- Validator `validate_non_empty_string` (identical in `validation.py`
and `mcp_tools.py`). -/
def validate_non_empty_string (value fieldName : String) : Except String Unit :=
  if value.data.isEmpty || (pyStripL value.data).isEmpty then
    Except.error (fieldName ++ " cannot be empty")
  else
    Except.ok ()

/-- Netloc component that `urllib.parse.urlparse(url)` returns when it
completes without raising, for inputs starting with an http or https
scheme (the only inputs on which `validate_url` reaches this check): the
text between the double slash and the next slash, question mark or hash.
The companion `urlparseExc` models the inputs on which `urlparse` raises
instead of returning. -/
def urlNetloc (u : List Char) : List Char :=
  if startsWithList "https://".data u then
    (u.drop 8).takeWhile (fun c => !(c == '/' || c == '?' || c == '#'))
  else if startsWithList "http://".data u then
    (u.drop 7).takeWhile (fun c => !(c == '/' || c == '?' || c == '#'))
  else
    []

/-- Exception model for `urllib.parse.urlparse`: `urlsplit` raises
ValueError("Invalid IPv6 URL") when the netloc region contains an
unbalanced square bracket.  A BALANCED bracket pair additionally
undergoes bracketed-host validation in newer CPython (3.11 and later),
which can also raise; together with the tab, CR and LF characters that
`urlsplit` deletes from the url before splitting, that behavior is
version-dependent, so the theorems below confine their universal parts
to urls free of brackets and of those three characters (`urlparseExact`),
on which `urlparse` is total and returns `urlNetloc` in every supported
Python version. -/
def urlparseExc (u : List Char) : Bool :=
  (hasChar (urlNetloc u) '[' && !hasChar (urlNetloc u) ']') ||
    (hasChar (urlNetloc u) ']' && !hasChar (urlNetloc u) '[')

/-- Domain on which the `urlparse` model is exact for every supported
Python version: no square brackets (no bracketed-host processing) and
none of the tab, CR and LF characters that `urlsplit` strips. -/
def urlparseExact (u : List Char) : Bool :=
  !hasChar u '[' && !hasChar u ']' && !hasChar u '\t' &&
    !hasChar u '\r' && !hasChar u '\n'

/-- Validator `validate_url` (identical in `validation.py` and
`mcp_tools.py`): empty check, scheme check, space check, dot check, then
the urlparse-based host check, in that order; the first failing check
raises.  The final check wraps BOTH the `urlparse` call and the
empty-netloc raise in a try block whose `except Exception` re-raises
ValueError("Invalid URL format"), so every host-check failure — an
empty netloc or a `urlparse` exception — surfaces with that one rewritten
message, and the inner message "URL must have a valid domain" never
reaches a caller. -/
def validate_url (url : String) : Except String Unit :=
  if url.data.isEmpty || (pyStripL url.data).isEmpty then
    Except.error "URL cannot be empty"
  else
    let u := pyStripL url.data
    if !(startsWithList "http://".data u || startsWithList "https://".data u) then
      Except.error "URL must start with http:// or https://"
    else if hasChar u ' ' then
      Except.error "URL cannot contain spaces"
    else if !hasChar u '.' then
      Except.error "URL must contain a domain with a dot"
    else if urlparseExc u || (urlNetloc u).isEmpty then
      Except.error "Invalid URL format"
    else
      Except.ok ()

/-- Message built by `validate_date_format` for a forbidden character. -/
def dateCharErr (c : Char) : String :=
  "Date cannot contain " ++ quoteCh ++ String.mk [c] ++ quoteCh ++ " characters"

/-- Message built by `validate_date_format` for a forbidden time phrase. -/
def datePatErr (p : String) : String :=
  "Use " ++ quoteCh ++ "1week" ++ quoteCh ++ ", " ++ quoteCh ++ "2weeks" ++
    quoteCh ++ ", " ++ quoteCh ++ "1month" ++ quoteCh ++ " instead of " ++
    quoteCh ++ p ++ quoteCh

/-- Validator `validate_date_format` (identical in `validation.py` and
`mcp_tools.py`): rejects empty dates, the characters space, dot, comma
and semicolon (in that order), a leading case-insensitive "this", colons,
and the spelled-out phrases "in a week", "in two weeks", "in a month". -/
def validate_date_format (date : String) : Except String Unit :=
  if date.data.isEmpty || (pyStripL date.data).isEmpty then
    Except.error "Date cannot be empty"
  else
    let d := pyStripL date.data
    if hasChar d ' ' then Except.error (dateCharErr ' ')
    else if hasChar d '.' then Except.error (dateCharErr '.')
    else if hasChar d ',' then Except.error (dateCharErr ',')
    else if hasChar d ';' then Except.error (dateCharErr ';')
    else if startsWithList "this".data (pyLowerL d) then
      Except.error ("Date cannot start with " ++ quoteCh ++ "this" ++ quoteCh ++
        " (use specific dates instead)")
    else if hasChar d ':' then
      Except.error ("Time should not contain colons (use " ++ quoteCh ++ "3pm" ++
        quoteCh ++ " instead of " ++ quoteCh ++ "3:00pm" ++ quoteCh ++ ")")
    else if containsList "in a week".data (pyLowerL d) then
      Except.error (datePatErr "in a week")
    else if containsList "in two weeks".data (pyLowerL d) then
      Except.error (datePatErr "in two weeks")
    else if containsList "in a month".data (pyLowerL d) then
      Except.error (datePatErr "in a month")
    else
      Except.ok ()

/-- Validator `validate_priority` (identical in `validation.py` and
`mcp_tools.py`). -/
def validate_priority (priority : String) : Except String Unit :=
  if priority == "low" || priority == "normal" || priority == "high" then
    Except.ok ()
  else
    Except.error "Priority must be one of: low, normal, high"

/-- Validator `validate_va_keywords` (identical in `validation.py` and
`mcp_tools.py`): plain substring search for any of the three keywords in
the lowercased prompt. -/
def validate_va_keywords (prompt : String) : Except String Unit :=
  let pl := pyLowerL prompt.data
  if containsList "virtual assistant".data pl ||
      containsList "v assistant".data pl || containsList "va".data pl then
    Except.ok ()
  else
    Except.error ("VA requests must include " ++ quoteCh ++ "virtual assistant" ++
      quoteCh ++ ", " ++ quoteCh ++ "v assistant" ++ quoteCh ++ ", or " ++
      quoteCh ++ "VA" ++ quoteCh ++ " in the prompt")

/-- Replacement for a key of a Python dict: overwrite in place if the key
exists, otherwise append (insertion order preserved). -/
def setKeyKvs : List (String × Json) → String → Json → List (String × Json)
  | [], k, v => [(k, v)]
  | (k0, v0) :: t, k, v =>
    if k0 == k then (k, v) :: t else (k0, v0) :: setKeyKvs t k v

/-- Python statement `result_dict["payload"][k] = v` on a record object
whose "payload" entry is itself an object (the shape every sync tool
produces); other shapes are left unchanged (the source would raise there,
but no modelled flow reaches them). -/
def setInPayload (j : Json) (k : String) (v : Json) : Json :=
  match j with
  | Json.obj kvs =>
    Json.obj (kvs.map (fun kv =>
      if kv.1 == "payload" then
        (kv.1, match kv.2 with
          | Json.obj pvs => Json.obj (setKeyKvs pvs k v)
          | o => o)
      else kv))
  | o => o

/-- MCP wrapper `follow_up_then` from `mcp_tools.py`: validates the three
fields (the date validator running on the RAW date), then calls the sync
tool, which normalizes.  The file-saving attempt inside the wrapper is
swallowed by a try/except and never affects the returned value, so it is
not part of this model. -/
def mcp_follow_up_then (prompt date message : String) : Except String Json :=
  match validate_non_empty_string prompt "Prompt" with
  | Except.error e => Except.error e
  | Except.ok _ =>
  match validate_non_empty_string date "Date" with
  | Except.error e => Except.error e
  | Except.ok _ =>
  match validate_non_empty_string message "Message" with
  | Except.error e => Except.error e
  | Except.ok _ =>
  match validate_date_format date with
  | Except.error e => Except.error e
  | Except.ok _ => Except.ok (follow_up_then prompt date message)

/-- MCP wrapper `note_to_self` from `mcp_tools.py`: validates, calls the
sync tool, and adds a "priority" payload key when a truthy non-default
priority was supplied.  The Python default argument is "normal"; a call
omitting the argument is modelled by passing `some "normal"`. -/
def mcp_note_to_self (prompt message : String) (priority : Option String) :
    Except String Json :=
  match validate_non_empty_string prompt "Prompt" with
  | Except.error e => Except.error e
  | Except.ok _ =>
  match validate_non_empty_string message "Message" with
  | Except.error e => Except.error e
  | Except.ok _ =>
  match priority with
  | some p =>
    match validate_priority p with
    | Except.error e => Except.error e
    | Except.ok _ =>
      if p != "" && p != "normal" then
        Except.ok (setInPayload (note_to_self prompt message) "priority" (Json.str p))
      else
        Except.ok (note_to_self prompt message)
  | none => Except.ok (note_to_self prompt message)

/-- MCP wrapper `save_url` from `mcp_tools.py`: validates the prompt and
the url (raising), calls the sync tool, and re-raises if the sync tool
returned its sentinel string.  A raw (non JSON) result that does not
start with "Error:" would fail `json.loads`; the only raw value the sync
tool produces is the sentinel, so that branch is a decode error. -/
def mcp_save_url (prompt url : String) : Except String Json :=
  match validate_non_empty_string prompt "Prompt" with
  | Except.error e => Except.error e
  | Except.ok _ =>
  match validate_url url with
  | Except.error e => Except.error e
  | Except.ok _ =>
  match save_url prompt url with
  | SyncResult.raw s =>
    if startsWithList "Error:".data s.data then Except.error s
    else Except.error "JSONDecodeError"
  | SyncResult.js j => Except.ok j

/-- MCP wrapper `journaling_topic` from `mcp_tools.py`: validates, calls
the sync tool, and adds a "category" payload key when a truthy category
was supplied (the default is None, modelled as `none`). -/
def mcp_journaling_topic (prompt topic : String) (category : Option String) :
    Except String Json :=
  match validate_non_empty_string prompt "Prompt" with
  | Except.error e => Except.error e
  | Except.ok _ =>
  match validate_non_empty_string topic "Topic" with
  | Except.error e => Except.error e
  | Except.ok _ =>
  match category with
  | some c =>
    match validate_non_empty_string c "Category" with
    | Except.error e => Except.error e
    | Except.ok _ =>
      if c != "" then
        Except.ok (setInPayload (journaling_topic prompt topic) "category" (Json.str c))
      else
        Except.ok (journaling_topic prompt topic)
  | none => Except.ok (journaling_topic prompt topic)

/-- MCP wrapper `va_request` from `mcp_tools.py`: validates the three
fields and the VA keywords, checks the urgency enum and the title length,
calls the sync tool, and adds an "urgency" payload key when a truthy
non-default urgency was supplied (default "normal", modelled as
`some "normal"` for a call omitting the argument). -/
def mcp_va_request (prompt title request : String) (urgency : Option String) :
    Except String Json :=
  match validate_non_empty_string prompt "Prompt" with
  | Except.error e => Except.error e
  | Except.ok _ =>
  match validate_non_empty_string title "Title" with
  | Except.error e => Except.error e
  | Except.ok _ =>
  match validate_non_empty_string request "Request" with
  | Except.error e => Except.error e
  | Except.ok _ =>
  match validate_va_keywords prompt with
  | Except.error e => Except.error e
  | Except.ok _ =>
  match urgency with
  | some u =>
    if !(u == "low" || u == "normal" || u == "high" || u == "urgent") then
      Except.error "Urgency must be one of: low, normal, high, urgent"
    else if title.data.length > 100 then
      Except.error "Title should be short (100 characters or less) for Trello card compatibility"
    else if u != "" && u != "normal" then
      Except.ok (setInPayload (va_request prompt title request) "urgency" (Json.str u))
    else
      Except.ok (va_request prompt title request)
  | none =>
    if title.data.length > 100 then
      Except.error "Title should be short (100 characters or less) for Trello card compatibility"
    else
      Except.ok (va_request prompt title request)

/-- One tool call as handed to `call_tool_function` in `main.py`: a
function name and an argument mapping (the JSON-text form of the
arguments is parsed to a mapping before dispatch, so the mapping is the
canonical shape here). -/
structure ToolCall where
  name : String
  args : List (String × String)

/-- Python keyword-argument lookup. -/
def getArg (args : List (String × String)) (k : String) : Option String :=
  (args.find? (fun kv => kv.1 == k)).map (fun kv => kv.2)

/-- Call a two-parameter tool with keyword arguments: Python raises a
TypeError (here `none`) unless the argument keys are exactly the two
parameter names. -/
def callWith2 (args : List (String × String)) (k1 k2 : String)
    (f : String → String → SyncResult) : Option SyncResult :=
  match getArg args k1, getArg args k2 with
  | some v1, some v2 => if args.length == 2 then some (f v1 v2) else none
  | _, _ => none

/-- Call a three-parameter tool with keyword arguments. -/
def callWith3 (args : List (String × String)) (k1 k2 k3 : String)
    (f : String → String → String → SyncResult) : Option SyncResult :=
  match getArg args k1, getArg args k2, getArg args k3 with
  | some v1, some v2, some v3 =>
    if args.length == 3 then some (f v1 v2 v3) else none
  | _, _, _ => none

/-- Lift an optional tool output to the dispatch result, pairing it with
the tool name as `call_tool_function` does. -/
def liftCall (n : String) (o : Option SyncResult) :
    Except String (String × SyncResult) :=
  match o with
  | some r => Except.ok (n, r)
  | none => Except.error "TypeError: unexpected or missing tool arguments"

/-- Dispatch Surface `call_tool_function` from `main.py`: maps the five
known tool names to the sync tools and raises
ValueError("Unknown function: ...") for any other name. -/
def call_tool_function (a : ToolCall) : Except String (String × SyncResult) :=
  if a.name == "follow_up_then" then
    liftCall a.name (callWith3 a.args "prompt" "date" "message"
      (fun p d m => SyncResult.js (follow_up_then p d m)))
  else if a.name == "note_to_self" then
    liftCall a.name (callWith2 a.args "prompt" "message"
      (fun p m => SyncResult.js (note_to_self p m)))
  else if a.name == "save_url" then
    liftCall a.name (callWith2 a.args "prompt" "url" (fun p u => save_url p u))
  else if a.name == "va_request" then
    liftCall a.name (callWith3 a.args "prompt" "title" "request"
      (fun p t r => SyncResult.js (va_request p t r)))
  else if a.name == "journaling_topic" then
    liftCall a.name (callWith2 a.args "prompt" "topic"
      (fun p t => SyncResult.js (journaling_topic p t)))
  else
    Except.error ("Unknown function: " ++ a.name)

/-- Python list comprehension `[call_tool_function(a) for a in actions]`:
every call is executed in order and the first exception aborts. -/
def mapCalls : List ToolCall → Except String (List (String × SyncResult))
  | [] => Except.ok []
  | a :: t =>
    match call_tool_function a with
    | Except.error e => Except.error e
    | Except.ok r =>
      match mapCalls t with
      | Except.error e => Except.error e
      | Except.ok rs => Except.ok (r :: rs)

/-- Python `json.loads` applied to one tool output: a serialized object
parses back to itself; the save-url sentinel is not valid JSON text. -/
def loadsOut : SyncResult → Option Json
  | SyncResult.js j => some j
  | SyncResult.raw _ => none

/-- Tool-call processing tail of `convert_to_json` in `main.py` (lines
279 to 288): run every returned tool call, then take the output of the
FIRST one and parse it; any exception (zero tool calls, a later metadata
merge input, unknown tool, bad arguments, unparsable output) becomes the
single resolution-failure result.  Zero tool calls arrive either as an
empty list or as Python None (iterating None raises); both end in the
same failure branch. -/
def process_tool_calls (calls : List ToolCall) : Except String Json :=
  match mapCalls calls with
  | Except.error _ => Except.error "Failed to execute tool functions."
  | Except.ok [] => Except.error "Failed to execute tool functions."
  | Except.ok (o :: _) =>
    match loadsOut o.2 with
    | some j => Except.ok j
    | none => Except.error "Failed to execute tool functions."

/-- Filename fragment `data_dict.get("command", "unknown")` of
`write_to_file`: the value of the "command" key formatted as text, or
"unknown" when the key is absent.  Every record produced by the tools
stores a string there; other value shapes (which Python would format with
str) are not reached by any modelled flow. -/
def commandName (kvs : List (String × Json)) : String :=
  match (kvs.find? (fun kv => kv.1 == "command")).map (fun kv => kv.2) with
  | some (Json.str s) => s
  | some _ => "nonstring-command"
  | none => "unknown"

/-- Persistence Sink `write_to_file` from `main.py`: the argument is the
outcome of `json.loads` on the raw text (`none` models a JSON decode
failure, which is re-raised as ValueError before anything is written).  A
parsed object is written and the filename is built from the timestamp and
the command; a parsed non-object value has no `get` method, so Python
raises an AttributeError at the filename step, also before any write.
The returned pair is the generated filename and the written value. -/
def write_to_file (timestamp : String) (parsed : Option Json) :
    Except String (String × Json) :=
  match parsed with
  | none =>
    Except.error ("Failed to decode " ++ quoteCh ++ "data" ++ quoteCh ++
      " from JSON. Ensure it is a properly formatted JSON string.")
  | some (Json.obj kvs) =>
    Except.ok (timestamp ++ "_" ++ commandName kvs ++ ".json", Json.obj kvs)
  | some _ =>
    Except.error "AttributeError: the parsed value is not an object"

/-- Intent Catalog required-field table of the specification (section
4.1); stated here as the comparison baseline for the payload-key claims.
The source keeps this table implicit in the payload constructions of
`tools.py`. -/
def requiredFields (intent : String) : List String :=
  if intent == "follow_up_then" then ["date", "message"]
  else if intent == "note_to_self" then ["message"]
  else if intent == "save_url" then ["url"]
  else if intent == "journaling_topic" then ["topic"]
  else if intent == "va_request" then ["title", "request"]
  else []

/-- Lookup of a key in a JSON object. -/
def getObjKey (j : Json) (k : String) : Option Json :=
  match j with
  | Json.obj kvs => (kvs.find? (fun kv => kv.1 == k)).map (fun kv => kv.2)
  | _ => none

/-- Keys of the payload object of a record, in order. -/
def payloadKeys (j : Json) : Option (List String) :=
  match getObjKey j "payload" with
  | some (Json.obj kvs) => some (kvs.map (fun kv => kv.1))
  | _ => none

/-- Value of the date field of a payload. -/
def payloadDate (j : Json) : Option Json :=
  match getObjKey j "payload" with
  | some p => getObjKey p "date"
  | none => none

/-- C6: the Date Normalizer applies its six rewrite steps in the fixed
order (remove "this" everywhere, remove spaces, dots, commas, colons,
collapse in-digits-unit), mapping "thisMonday" to "Monday", "1 August" to
"1August", "in2weeks" to "2weeks" and "tomorrow3:00pm" to "tomorrow300pm";
the extra examples witness the ordering ("th is" only becomes "this"
because the "this" removal runs before the space removal, and
"in 2 weeks" only collapses because the space removal runs before the
regex pass). -/
theorem C6_normalizer_order :
    normalize_date "thisMonday" = "Monday" ∧
    normalize_date "1 August" = "1August" ∧
    normalize_date "in2weeks" = "2weeks" ∧
    normalize_date "tomorrow3:00pm" = "tomorrow300pm" ∧
    normalize_date "th is" = "this" ∧
    normalize_date "in 2 weeks" = "2weeks" ∧
    (∀ x : String, normalize_date x = String.mk (inSub (remCharL ':' (remCharL ','
      (remCharL '.' (remCharL ' ' (removeThisList x.data))))))) :=
  ⟨by decide, by decide, by decide, by decide, by decide, by decide, fun _ => rfl⟩

/-- C5 counterexample: the Date Normalizer is NOT idempotent.  On
"th is" one pass deletes the space and thereby creates the substring
"this" ("th is" normalizes to "this"), which a second pass deletes
("this" normalizes to the empty string). -/
theorem C5_cex :
    normalize_date (normalize_date "th is") ≠ normalize_date "th is" := by
  decide

/-- C5 amended: the Date Normalizer is idempotent on every input whose
normalized form contains no leftover "this" substring and no position
matching the in-digits-unit regex; the character-removal steps are never
an obstacle because a normalized string contains no space, dot, comma or
colon. -/
theorem C5_idempotent_on_stable (x : String)
    (h1 : containsList ['t', 'h', 'i', 's'] (normalize_date x).data = false)
    (h2 : noInMatch (normalize_date x).data = true) :
    normalize_date (normalize_date x) = normalize_date x := by
  have hforb := normalize_no_forbidden x
  have e1 : removeThisList (normalize_date x).data = (normalize_date x).data :=
    removeThis_eq_self _ h1
  have e2 : remCharL ' ' (normalize_date x).data = (normalize_date x).data :=
    remChar_eq_self _ _ hforb.1
  have e3 : remCharL '.' (normalize_date x).data = (normalize_date x).data :=
    remChar_eq_self _ _ hforb.2.1
  have e4 : remCharL ',' (normalize_date x).data = (normalize_date x).data :=
    remChar_eq_self _ _ hforb.2.2.1
  have e5 : remCharL ':' (normalize_date x).data = (normalize_date x).data :=
    remChar_eq_self _ _ hforb.2.2.2
  have e6 : inSub (normalize_date x).data = (normalize_date x).data :=
    inSub_eq_self _ h2
  calc normalize_date (normalize_date x)
      = String.mk (inSub (remCharL ':' (remCharL ',' (remCharL '.'
          (remCharL ' ' (removeThisList (normalize_date x).data)))))) := rfl
    _ = String.mk (normalize_date x).data := by rw [e1, e2, e3, e4, e5, e6]
    _ = normalize_date x := string_mk_data _

/-- C5 witness: the amended idempotence theorem applied to the concrete
input "1 August". -/
theorem C5_idempotent_on_stable_witness :
    containsList ['t', 'h', 'i', 's'] (normalize_date "1 August").data = false ∧
    noInMatch (normalize_date "1 August").data = true ∧
    normalize_date (normalize_date "1 August") = normalize_date "1 August" :=
  ⟨by decide, by decide, C5_idempotent_on_stable "1 August" (by decide) (by decide)⟩

/-- C3 counterexample: `validate_va_keywords` matches "va" as a PLAIN
SUBSTRING of the lowercased prompt, with no word boundaries, so the
prompt "Please book via the value chain" (whose word "value" contains
"va") is accepted, where the claim says it must fail. -/
theorem C3_cex :
    validate_va_keywords "Please book via the value chain" = Except.ok () := by
  rfl

/-- C3 amended: `validate_va_keywords` succeeds exactly when the
lowercased prompt contains one of the substrings "virtual assistant",
"v assistant" or "va" — plain substring containment, not word-boundary
matching — so it accepts both "Ask the VA to book it" and
"Please book via the value chain", and rejects "Book a restaurant". -/
theorem C3_substring_semantics :
    (∀ p : String, validate_va_keywords p = Except.ok () ↔
      (containsList "virtual assistant".data (pyLowerL p.data) = true ∨
       containsList "v assistant".data (pyLowerL p.data) = true ∨
       containsList "va".data (pyLowerL p.data) = true)) ∧
    validate_va_keywords "Ask the VA to book it" = Except.ok () ∧
    validate_va_keywords "virtual assistant please" = Except.ok () ∧
    validate_va_keywords "Please book via the value chain" = Except.ok () ∧
    validate_va_keywords "Book a restaurant" =
      Except.error ("VA requests must include " ++ quoteCh ++ "virtual assistant" ++
        quoteCh ++ ", " ++ quoteCh ++ "v assistant" ++ quoteCh ++ ", or " ++
        quoteCh ++ "VA" ++ quoteCh ++ " in the prompt") := by
  refine ⟨?_, rfl, rfl, rfl, rfl⟩
  intro p
  simp only [validate_va_keywords]
  split
  case isTrue h =>
    simp only [Bool.or_eq_true] at h
    exact ⟨fun _ => or_assoc.mp h, fun _ => rfl⟩
  case isFalse h =>
    simp only [Bool.or_eq_true] at h
    constructor
    · intro he
      simp at he
    · intro hd
      exact absurd (or_assoc.mpr hd) h

/-- C9: `call_tool_function` fails with "Unknown function: ..." for every
tool name outside the five-intent catalog, no matter what arguments are
supplied. -/
theorem C9_unknown_intent (a : ToolCall)
    (h : a.name ∉ ["follow_up_then", "note_to_self", "save_url",
      "va_request", "journaling_topic"]) :
    call_tool_function a = Except.error ("Unknown function: " ++ a.name) := by
  simp only [List.mem_cons, List.not_mem_nil, or_false, not_or] at h
  obtain ⟨h1, h2, h3, h4, h5⟩ := h
  simp [call_tool_function, beq_iff_eq, h1, h2, h3, h4, h5]

/-- C9 witness: the unknown-intent theorem applied to the concrete call
name "frobnicate" with nonempty arguments. -/
theorem C9_unknown_intent_witness :
    call_tool_function ⟨"frobnicate", [("prompt", "p")]⟩ =
      Except.error ("Unknown function: " ++ "frobnicate") :=
  C9_unknown_intent ⟨"frobnicate", [("prompt", "p")]⟩ (by decide)

theorem hasChar_append (l1 l2 : List Char) (c : Char) :
    hasChar (l1 ++ l2) c = (hasChar l1 c || hasChar l2 c) := by
  induction l1 with
  | nil => simp [hasChar]
  | cons a t ih => simp [hasChar, ih, Bool.or_assoc]

/-- Characters of a url after its http or https scheme prefix (the text
in which the claim locates the required dot). -/
def schemeRest (u : List Char) : List Char :=
  if startsWithList "https://".data u then u.drop 8
  else if startsWithList "http://".data u then u.drop 7
  else u

theorem schemeRest_http (r : List Char) :
    schemeRest ("http://".data ++ r) = r := by
  have h1 : startsWithList "https://".data ("http://".data ++ r) = false := rfl
  have h2 : startsWithList "http://".data ("http://".data ++ r) = true :=
    (startsWithList_iff _ _).mpr ⟨r, rfl⟩
  have h3 : ("http://".data ++ r).drop 7 = r := by
    have : ("http://".data).length = 7 := rfl
    rw [← this, List.drop_left]
  simp only [schemeRest, h1, h2, if_true, if_false, Bool.false_eq_true]
  exact h3

theorem schemeRest_https (r : List Char) :
    schemeRest ("https://".data ++ r) = r := by
  have h2 : startsWithList "https://".data ("https://".data ++ r) = true :=
    (startsWithList_iff _ _).mpr ⟨r, rfl⟩
  have h3 : ("https://".data ++ r).drop 8 = r := by
    have : ("https://".data).length = 8 := rfl
    rw [← this, List.drop_left]
  simp only [schemeRest, h2, if_true]
  exact h3


theorem hasChar_dot_schemeRest (u : List Char)
    (h : (startsWithList "http://".data u || startsWithList "https://".data u) = true) :
    hasChar (schemeRest u) '.' = hasChar u '.' := by
  rw [Bool.or_eq_true] at h
  rcases h with h1 | h1
  · obtain ⟨r, hr⟩ := (startsWithList_iff _ _).mp h1
    subst hr
    rw [schemeRest_http, hasChar_append]
    rfl
  · obtain ⟨r, hr⟩ := (startsWithList_iff _ _).mp h1
    subst hr
    rw [schemeRest_https, hasChar_append]
    rfl

theorem mem_urlNetloc_sub (a : Char) (u : List Char) (h : a ∈ urlNetloc u) :
    a ∈ u := by
  simp only [urlNetloc] at h
  split at h
  · exact List.drop_subset 8 u ((List.takeWhile_prefix _).subset h)
  · split at h
    · exact List.drop_subset 7 u ((List.takeWhile_prefix _).subset h)
    · simp at h

theorem urlparseExc_of_exact (u : List Char) (h : urlparseExact u = true) :
    urlparseExc u = false := by
  simp only [urlparseExact, Bool.and_eq_true, Bool.not_eq_true'] at h
  have h1 := (hasChar_eq_false_iff u '[').mp h.1.1.1.1
  have h2 := (hasChar_eq_false_iff u ']').mp h.1.1.1.2
  have n1 : hasChar (urlNetloc u) '[' = false :=
    (hasChar_eq_false_iff _ _).mpr (fun hm => h1 (mem_urlNetloc_sub _ _ hm))
  have n2 : hasChar (urlNetloc u) ']' = false :=
    (hasChar_eq_false_iff _ _).mpr (fun hm => h2 (mem_urlNetloc_sub _ _ hm))
  simp [urlparseExc, n1, n2]

/-- C8: `validate_url` succeeds exactly when the (stripped) value starts
with an http or https scheme, contains no space, contains a dot after the
scheme, and parses to a nonempty host; the checks run in that order, so
each example reports the first failing rule.  The universal clause is
stated on urls free of square brackets and of tab, CR and LF — the
domain on which the urlparse model is exact in every supported Python
version — and a host-check failure surfaces as "Invalid URL format",
because the source wraps both the parse and the empty-netloc raise in a
try block whose except clause rewrites every failure of that stage to
that one message (the unbalanced-bracket example below goes through the
same rewrite). -/
theorem C8_validate_url_rules :
    (∀ url : String, urlparseExact (pyStripL url.data) = true →
      (validate_url url = Except.ok () ↔
        ((startsWithList "http://".data (pyStripL url.data) ||
            startsWithList "https://".data (pyStripL url.data)) = true ∧
          hasChar (pyStripL url.data) ' ' = false ∧
          hasChar (schemeRest (pyStripL url.data)) '.' = true ∧
          (urlNetloc (pyStripL url.data)).isEmpty = false))) ∧
    validate_url "example.com" = Except.error "URL must start with http:// or https://" ∧
    validate_url "https://example .com" = Except.error "URL cannot contain spaces" ∧
    validate_url "https://localhost" = Except.error "URL must contain a domain with a dot" ∧
    validate_url "https://example.com" = Except.ok () ∧
    validate_url "https://a b" = Except.error "URL cannot contain spaces" ∧
    validate_url "https:///path.html" = Except.error "Invalid URL format" ∧
    validate_url "https://exa[mple.com" = Except.error "Invalid URL format" := by
  refine ⟨?_, rfl, rfl, rfl, rfl, rfl, rfl, rfl⟩
  intro url hsafe
  have hexc := urlparseExc_of_exact _ hsafe
  cases hemp : (url.data.isEmpty || (pyStripL url.data).isEmpty) with
  | true =>
    have hnil : pyStripL url.data = [] := by
      rw [Bool.or_eq_true] at hemp
      rcases hemp with h | h
      · rw [List.isEmpty_iff.mp h]
        rfl
      · exact List.isEmpty_iff.mp h
    simp [validate_url, hemp, hnil, startsWithList]
  | false =>
    cases hsch : (startsWithList "http://".data (pyStripL url.data) ||
        startsWithList "https://".data (pyStripL url.data)) with
    | false =>
      simp [validate_url, hemp, hsch]
    | true =>
      have hdoteq := hasChar_dot_schemeRest (pyStripL url.data) hsch
      cases hsp : hasChar (pyStripL url.data) ' ' with
      | true => simp [validate_url, hemp, hsch, hsp]
      | false =>
        cases hdot : hasChar (pyStripL url.data) '.' with
        | false => simp [validate_url, hemp, hsch, hsp, hdoteq, hdot]
        | true =>
          cases hnet : (urlNetloc (pyStripL url.data)).isEmpty with
          | true => simp [validate_url, hemp, hsch, hsp, hdoteq, hdot, hexc, hnet]
          | false => simp [validate_url, hemp, hsch, hsp, hdoteq, hdot, hexc, hnet]

/-- C8 witness: the universal clause applied to the concrete url
"https://example.com", whose stripped form contains no bracket and no
tab, CR or LF. -/
theorem C8_validate_url_rules_witness :
    validate_url "https://example.com" = Except.ok () ↔
      ((startsWithList "http://".data (pyStripL "https://example.com".data) ||
          startsWithList "https://".data (pyStripL "https://example.com".data)) = true ∧
        hasChar (pyStripL "https://example.com".data) ' ' = false ∧
        hasChar (schemeRest (pyStripL "https://example.com".data)) '.' = true ∧
        (urlNetloc (pyStripL "https://example.com".data)).isEmpty = false) :=
  C8_validate_url_rules.1 "https://example.com" (by decide)

/-- C1: the tool-call processing of `convert_to_json` never turns zero
tool calls into a success record (an empty call list ends in the single
resolution failure), and whenever it does produce a record, that record
is parsed from the output of the FIRST tool call alone, the later calls
contributing nothing to it. -/
theorem C1_single_tool_call :
    process_tool_calls [] = Except.error "Failed to execute tool functions." ∧
    (∀ (calls : List ToolCall) (j : Json),
      process_tool_calls calls = Except.ok j →
      ∃ c rest out, calls = c :: rest ∧
        call_tool_function c = Except.ok out ∧ loadsOut out.2 = some j) := by
  constructor
  · rfl
  · intro calls j h
    cases calls with
    | nil => simp [process_tool_calls, mapCalls] at h
    | cons c rest =>
      simp only [process_tool_calls] at h
      cases hm : mapCalls (c :: rest) with
      | error e => simp [hm] at h
      | ok rs =>
        rw [hm] at h
        simp only [mapCalls] at hm
        cases hc : call_tool_function c with
        | error e => simp [hc] at hm
        | ok r =>
          rw [hc] at hm
          cases hm2 : mapCalls rest with
          | error e => simp [hm2] at hm
          | ok rs2 =>
            rw [hm2] at hm
            simp only [Except.ok.injEq] at hm
            subst hm
            simp only [] at h
            cases hl : loadsOut r.2 with
            | none => simp [hl] at h
            | some j2 =>
              rw [hl] at h
              simp only [Except.ok.injEq] at h
              subst h
              exact ⟨c, rest, r, rfl, hc, hl⟩

/-- C1 witness: two tool calls are returned; the produced record is the
one parsed from the first call (a note), not the second. -/
theorem C1_single_tool_call_witness :
    ∃ c rest out,
      ([⟨"note_to_self", [("prompt", "p"), ("message", "m")]⟩,
        ⟨"journaling_topic", [("prompt", "p"), ("topic", "t")]⟩] : List ToolCall) =
        c :: rest ∧
      call_tool_function c = Except.ok out ∧
      loadsOut out.2 = some (note_to_self "p" "m") :=
  C1_single_tool_call.2
    [⟨"note_to_self", [("prompt", "p"), ("message", "m")]⟩,
     ⟨"journaling_topic", [("prompt", "p"), ("topic", "t")]⟩]
    (note_to_self "p" "m") rfl

/-- C4 counterexample: in the MCP path the date validator runs on the RAW
date before the Date Normalizer, so the auto-fixable date "thisMonday" is
rejected even though its normalization "Monday" would validate. -/
theorem C4_cex :
    mcp_follow_up_then "p" "thisMonday" "m" =
      Except.error ("Date cannot start with " ++ quoteCh ++ "this" ++ quoteCh ++
        " (use specific dates instead)") ∧
    normalize_date "thisMonday" = "Monday" ∧
    validate_date_format (normalize_date "thisMonday") = Except.ok () :=
  ⟨rfl, rfl, rfl⟩

/-- C4 amended: only the CLI/sync path normalizes before accepting (the
sync `follow_up_then` runs the Date Normalizer on every date and applies
no date validator); the MCP path validates the raw date first, so a
successful MCP dispatch implies the raw date already passed
`validate_date_format`, and only then is the normalizer applied. -/
theorem C4_normalizer_placement :
    (∀ p d m, payloadDate (follow_up_then p d m) =
      some (Json.str (normalize_date d))) ∧
    (∀ p d m j, mcp_follow_up_then p d m = Except.ok j →
      validate_date_format d = Except.ok () ∧
      payloadDate j = some (Json.str (normalize_date d))) := by
  constructor
  · intro p d m
    rfl
  · intro p d m j h
    simp only [mcp_follow_up_then] at h
    cases h1 : validate_non_empty_string p "Prompt" with
    | error e => simp [h1] at h
    | ok v1 =>
      cases h2 : validate_non_empty_string d "Date" with
      | error e => simp [h1, h2] at h
      | ok v2 =>
        cases h3 : validate_non_empty_string m "Message" with
        | error e => simp [h1, h2, h3] at h
        | ok v3 =>
          cases h4 : validate_date_format d with
          | error e => simp [h1, h2, h3, h4] at h
          | ok v4 =>
            simp only [h1, h2, h3, h4, Except.ok.injEq] at h
            subst h
            cases v4
            exact ⟨rfl, rfl⟩

/-- C4 witness: the amended theorem applied to a well-formed concrete
dispatch. -/
theorem C4_normalizer_placement_witness :
    validate_date_format "tomorrow3pm" = Except.ok () ∧
    payloadDate (follow_up_then "p" "tomorrow3pm" "m") =
      some (Json.str (normalize_date "tomorrow3pm")) :=
  C4_normalizer_placement.2 "p" "tomorrow3pm" "m"
    (follow_up_then "p" "tomorrow3pm" "m") rfl

/-- C7 counterexample: the legacy sync `save_url` RETURNS the sentinel
error string for an invalid url instead of raising a typed error. -/
theorem C7_cex :
    save_url "note this" "not a url" =
      SyncResult.raw "Error: The input is not a valid URL." :=
  rfl

/-- C7 amended: only the MCP path raises a typed error: whenever
`validate_url` rejects the url (and the prompt is nonempty), `save_url`
over MCP propagates exactly that error and produces no record; the
legacy sync path instead returns the sentinel string
"Error: The input is not a valid URL." whenever its weaker check fails,
also without producing a record. -/
theorem C7_url_error_paths :
    (∀ p u e, validate_non_empty_string p "Prompt" = Except.ok () →
      validate_url u = Except.error e →
      mcp_save_url p u = Except.error e) ∧
    (∀ p u, (!startsWithList "http".data u.data || !hasChar u.data '.' ||
        hasChar u.data ' ') = true →
      save_url p u = SyncResult.raw "Error: The input is not a valid URL.") := by
  constructor
  · intro p u e h1 h2
    simp [mcp_save_url, h1, h2]
  · intro p u h
    simp [save_url, h]

/-- C7 witness: the MCP clause applied to the concrete invalid urls
"not a url" (first failing rule: the scheme) and "https:///x.y" (a
host-check failure, surfacing with the except-rewritten message
"Invalid URL format"), and the sync clause applied to "not a url". -/
theorem C7_url_error_paths_witness :
    mcp_save_url "p" "not a url" =
      Except.error "URL must start with http:// or https://" ∧
    mcp_save_url "p" "https:///x.y" = Except.error "Invalid URL format" ∧
    save_url "p" "not a url" = SyncResult.raw "Error: The input is not a valid URL." :=
  ⟨C7_url_error_paths.1 "p" "not a url" _ rfl rfl,
   C7_url_error_paths.1 "p" "https:///x.y" _ rfl rfl,
   C7_url_error_paths.2 "p" "not a url" (by decide)⟩

theorem save_url_js_keys (p u : String) (j : Json)
    (h : save_url p u = SyncResult.js j) : payloadKeys j = some ["url"] := by
  simp only [save_url] at h
  split at h
  · simp at h
  · simp only [SyncResult.js.injEq] at h
    subst h
    rfl

/-- C2 counterexample: a successfully dispatched MCP note with priority
"high" carries the extra payload key "priority", so the payload keys are
NOT exactly the declared required fields of the intent. -/
theorem C2_cex :
    mcp_note_to_self "hi" "msg" (some "high") =
      Except.ok (Json.obj [("prompt", Json.str "hi"),
        ("command", Json.str "note_to_self"),
        ("payload", Json.obj [("message", Json.str "msg"),
          ("priority", Json.str "high")])]) ∧
    payloadKeys (Json.obj [("prompt", Json.str "hi"),
      ("command", Json.str "note_to_self"),
      ("payload", Json.obj [("message", Json.str "msg"),
        ("priority", Json.str "high")])]) = some ["message", "priority"] ∧
    requiredFields "note_to_self" = ["message"] ∧
    (["message", "priority"] : List String) ≠ ["message"] :=
  ⟨rfl, rfl, rfl, by decide⟩

/-- C2 amended: the payload keys of a successfully dispatched record are
the declared required fields of the intent, PLUS one optional key
(priority, category or urgency) appended by the MCP wrappers exactly when
the optional argument is supplied with a truthy non-default value; the
sync tools always emit exactly the required fields. -/
theorem C2_payload_keys :
    (∀ p d m, payloadKeys (follow_up_then p d m) =
      some (requiredFields "follow_up_then")) ∧
    (∀ p m, payloadKeys (note_to_self p m) = some (requiredFields "note_to_self")) ∧
    (∀ p t, payloadKeys (journaling_topic p t) =
      some (requiredFields "journaling_topic")) ∧
    (∀ p t r, payloadKeys (va_request p t r) = some (requiredFields "va_request")) ∧
    (∀ p u j, save_url p u = SyncResult.js j →
      payloadKeys j = some (requiredFields "save_url")) ∧
    (∀ p d m j, mcp_follow_up_then p d m = Except.ok j →
      payloadKeys j = some (requiredFields "follow_up_then")) ∧
    (∀ p u j, mcp_save_url p u = Except.ok j →
      payloadKeys j = some (requiredFields "save_url")) ∧
    (∀ p m pr j, mcp_note_to_self p m pr = Except.ok j →
      payloadKeys j = some (requiredFields "note_to_self" ++
        (match pr with
          | some q => if q != "" && q != "normal" then ["priority"] else []
          | none => []))) ∧
    (∀ p t c j, mcp_journaling_topic p t c = Except.ok j →
      payloadKeys j = some (requiredFields "journaling_topic" ++
        (match c with
          | some q => if q != "" then ["category"] else []
          | none => []))) ∧
    (∀ p t r u j, mcp_va_request p t r u = Except.ok j →
      payloadKeys j = some (requiredFields "va_request" ++
        (match u with
          | some q => if q != "" && q != "normal" then ["urgency"] else []
          | none => []))) := by
  refine ⟨fun p d m => rfl, fun p m => rfl, fun p t => rfl, fun p t r => rfl,
    save_url_js_keys, ?_, ?_, ?_, ?_, ?_⟩
  · intro p d m j h
    simp only [mcp_follow_up_then] at h
    cases h1 : validate_non_empty_string p "Prompt" with
    | error e => simp [h1] at h
    | ok v1 =>
      cases h2 : validate_non_empty_string d "Date" with
      | error e => simp [h1, h2] at h
      | ok v2 =>
        cases h3 : validate_non_empty_string m "Message" with
        | error e => simp [h1, h2, h3] at h
        | ok v3 =>
          cases h4 : validate_date_format d with
          | error e => simp [h1, h2, h3, h4] at h
          | ok v4 =>
            simp only [h1, h2, h3, h4, Except.ok.injEq] at h
            subst h
            rfl
  · intro p u j h
    simp only [mcp_save_url] at h
    cases h1 : validate_non_empty_string p "Prompt" with
    | error e => simp [h1] at h
    | ok v1 =>
      cases h2 : validate_url u with
      | error e => simp [h1, h2] at h
      | ok v2 =>
        cases hs : save_url p u with
        | raw s =>
          simp only [h1, h2, hs] at h
          split at h <;> simp at h
        | js j2 =>
          simp only [h1, h2, hs, Except.ok.injEq] at h
          subst h
          exact save_url_js_keys p u j2 hs
  · intro p m pr j h
    simp only [mcp_note_to_self] at h
    cases h1 : validate_non_empty_string p "Prompt" with
    | error e => simp [h1] at h
    | ok v1 =>
      cases h2 : validate_non_empty_string m "Message" with
      | error e => simp [h1, h2] at h
      | ok v2 =>
        cases pr with
        | none =>
          simp only [h1, h2, Except.ok.injEq] at h
          subst h
          rfl
        | some q =>
          cases h3 : validate_priority q with
          | error e => simp [h1, h2, h3] at h
          | ok v3 =>
            cases hq : (q != "" && q != "normal") with
            | true =>
              simp [h1, h2, h3, hq] at h
              subst h
              show payloadKeys (setInPayload (note_to_self p m) "priority"
                  (Json.str q)) = some (requiredFields "note_to_self" ++
                  (if (q != "" && q != "normal") = true then ["priority"] else []))
              rw [hq]
              rfl
            | false =>
              simp [h1, h2, h3, hq] at h
              subst h
              show payloadKeys (note_to_self p m) =
                some (requiredFields "note_to_self" ++
                  (if (q != "" && q != "normal") = true then ["priority"] else []))
              rw [hq]
              rfl
  · intro p t c j h
    simp only [mcp_journaling_topic] at h
    cases h1 : validate_non_empty_string p "Prompt" with
    | error e => simp [h1] at h
    | ok v1 =>
      cases h2 : validate_non_empty_string t "Topic" with
      | error e => simp [h1, h2] at h
      | ok v2 =>
        cases c with
        | none =>
          simp only [h1, h2, Except.ok.injEq] at h
          subst h
          rfl
        | some q =>
          cases h3 : validate_non_empty_string q "Category" with
          | error e => simp [h1, h2, h3] at h
          | ok v3 =>
            cases hq : (q != "") with
            | true =>
              simp [h1, h2, h3, hq] at h
              subst h
              show payloadKeys (setInPayload (journaling_topic p t) "category"
                  (Json.str q)) = some (requiredFields "journaling_topic" ++
                  (if (q != "") = true then ["category"] else []))
              rw [hq]
              rfl
            | false =>
              simp [h1, h2, h3, hq] at h
              subst h
              show payloadKeys (journaling_topic p t) =
                some (requiredFields "journaling_topic" ++
                  (if (q != "") = true then ["category"] else []))
              rw [hq]
              rfl
  · intro p t r u j h
    simp only [mcp_va_request] at h
    cases h1 : validate_non_empty_string p "Prompt" with
    | error e => simp [h1] at h
    | ok v1 =>
      cases h2 : validate_non_empty_string t "Title" with
      | error e => simp [h1, h2] at h
      | ok v2 =>
        cases h3 : validate_non_empty_string r "Request" with
        | error e => simp [h1, h2, h3] at h
        | ok v3 =>
          cases h4 : validate_va_keywords p with
          | error e => simp [h1, h2, h3, h4] at h
          | ok v4 =>
            cases u with
            | none =>
              by_cases hlen : 100 < t.length
              · simp [h1, h2, h3, h4, hlen] at h
              · simp [h1, h2, h3, h4, hlen] at h
                subst h
                rfl
            | some q =>
              cases hu : (q == "low" || q == "normal" || q == "high" ||
                  q == "urgent") with
              | false => simp [h1, h2, h3, h4, hu] at h
              | true =>
                by_cases hlen : 100 < t.length
                · simp [h1, h2, h3, h4, hu, hlen] at h
                · cases hq : (q != "" && q != "normal") with
                  | true =>
                    simp [h1, h2, h3, h4, hu, hlen, hq] at h
                    subst h
                    show payloadKeys (setInPayload (va_request p t r) "urgency"
                        (Json.str q)) = some (requiredFields "va_request" ++
                        (if (q != "" && q != "normal") = true then ["urgency"] else []))
                    rw [hq]
                    rfl
                  | false =>
                    simp [h1, h2, h3, h4, hu, hlen, hq] at h
                    subst h
                    show payloadKeys (va_request p t r) =
                      some (requiredFields "va_request" ++
                        (if (q != "" && q != "normal") = true then ["urgency"] else []))
                    rw [hq]
                    rfl

/-- C2 witness: the MCP follow-up clause of the amended theorem applied
to a concrete successful dispatch. -/
theorem C2_payload_keys_witness :
    payloadKeys (follow_up_then "p" "tomorrow3pm" "m") =
      some (requiredFields "follow_up_then") :=
  C2_payload_keys.2.2.2.2.2.1 "p" "tomorrow3pm" "m"
    (follow_up_then "p" "tomorrow3pm" "m") rfl

/-- C10 counterexample: the input text "[1, 2]" is valid JSON (so it is
not non-JSON input) yet persisting it still fails before any file is
written, because the parsed value is not an object and has no command
lookup; hence non-JSON input is not the only rejected input. -/
theorem C10_cex :
    write_to_file "20240101_000000" (some (Json.arr [Json.num 1, Json.num 2])) =
      Except.error "AttributeError: the parsed value is not an object" :=
  rfl

/-- C10 amended: persisting text that parses to a JSON object with no
"command" key succeeds and names the file timestamp_unknown.json;
non-JSON input is rejected at the decode step before any file is
written; and JSON input that parses to a non-object also fails before
any write, at the command lookup. -/
theorem C10_unknown_command :
    (∀ ts kvs, kvs.find? (fun kv => kv.1 == "command") = none →
      write_to_file ts (some (Json.obj kvs)) =
        Except.ok (ts ++ "_unknown.json", Json.obj kvs)) ∧
    (∀ ts, write_to_file ts none =
      Except.error ("Failed to decode " ++ quoteCh ++ "data" ++ quoteCh ++
        " from JSON. Ensure it is a properly formatted JSON string.")) := by
  constructor
  · intro ts kvs h
    simp only [write_to_file, commandName, h]
    show Except.ok (ts ++ "_" ++ "unknown" ++ ".json", Json.obj kvs) =
      Except.ok (ts ++ "_unknown.json", Json.obj kvs)
    rw [String.append_assoc, String.append_assoc]
    rfl
  · intro ts
    rfl

/-- C10 witness: the amended theorem applied to a concrete object with no
command key. -/
theorem C10_unknown_command_witness :
    write_to_file "T" (some (Json.obj [("prompt", Json.str "x")])) =
      Except.ok ("T" ++ "_unknown.json", Json.obj [("prompt", Json.str "x")]) :=
  C10_unknown_command.1 "T" [("prompt", Json.str "x")] rfl
